import Mathlib

/-
Verification development for examples/browser-debugging/scripts/cdp-console.py
(a Chrome DevTools Protocol console streamer).

The Python source is shallowly embedded below:
  - JSON values (the wire format handled by json.loads / json.dumps) become
    the inductive type JVal; Python dict.get, str(), truthiness and
    json.dumps(..., ensure_ascii=False, indent=2) become pyGet, pyStr,
    pyTruthy and dumpsVal.
  - The network side of send_command / get_object_properties is abstracted
    by a fetch oracle (FetchEnv) giving, per objectId, the outcome of the
    correlated Runtime.getProperties round trip: a reply message, an
    asyncio.TimeoutError of the outer 2-second wait_for, or another
    exception.  Everything else is translated statement by statement.
  - The Correlator (send_command id allocation / pending map / close) is
    modelled separately as a small event-step machine (CorrState, corrStep),
    because its claims are about resolution counting rather than payloads.
-/

/-- JSON value as produced by json.loads: null, booleans, numbers (the
protocol messages relevant here carry integers), strings, arrays, and
objects as insertion-ordered key/value lists. -/
inductive JVal where
  | jnull
  | jbool (b : Bool)
  | jnum (n : Int)
  | jstr (s : String)
  | jarr (xs : List JVal)
  | jobj (fields : List (String × JVal))

/-- Lookup of a key in an insertion-ordered field list (Python dict lookup;
json.loads never yields duplicate keys). -/
def lookupField : List (String × JVal) → String → Option JVal
  | [], _ => none
  | (k2, v) :: rest, k => if k2 = k then some v else lookupField rest k

/-- Python "k in d" / "d[k]" on a JSON object; none when the key is absent.
The Python code only applies dict operations to dict-shaped values (a
non-dict would raise and be caught by the frame loop); the model returns
none for non-objects. -/
def jGet : JVal → String → Option JVal
  | .jobj fs, k => lookupField fs k
  | _, _ => none

/-- Python d.get(k, default). -/
def pyGet (d : JVal) (k : String) (dflt : JVal) : JVal :=
  (jGet d k).getD dflt

/-- Python truthiness of a JSON-shaped value. -/
def pyTruthy : JVal → Bool
  | .jnull => false
  | .jbool b => b
  | .jnum n => n != 0
  | .jstr s => !s.isEmpty
  | .jarr xs => !xs.isEmpty
  | .jobj fs => !fs.isEmpty

/-- Test used for comparisons such as value_desc.get("type") == "object":
true only when the looked-up value is the given string. -/
def typeIs (v : JVal) (t : String) : Bool :=
  match jGet v "type" with
  | some (.jstr s) => s == t
  | _ => false

/-- Python == between a JSON value and a string literal. -/
def jstrEq (v : JVal) (s : String) : Bool :=
  match v with
  | .jstr s2 => s2 == s
  | _ => false

/-- Single-quote character, used by Python repr of strings. -/
def pySq : String := String.singleton (Char.ofNat 39)

/-- Escape of one character inside a JSON string literal, as json.dumps with
ensure_ascii=False performs it. -/
def escChar (c : Char) : String :=
  if c = '"' then "\\\""
  else if c = '\\' then "\\\\"
  else if c = '\n' then "\\n"
  else if c = '\t' then "\\t"
  else if c = '\r' then "\\r"
  else if c.toNat = 8 then "\\b"
  else if c.toNat = 12 then "\\f"
  else if c.toNat < 32 then
    "\\u00" ++ String.singleton (Nat.digitChar (c.toNat / 16))
      ++ String.singleton (Nat.digitChar (c.toNat % 16))
  else String.singleton c

/-- Character-by-character escaping of a string body. -/
def escapeList : List Char → String
  | [] => ""
  | c :: cs => escChar c ++ escapeList cs

/-- JSON string-body escaping (json.dumps, ensure_ascii=False). -/
def escapeJson (s : String) : String :=
  escapeList s.data

/-- Indentation emitted by json.dumps(indent=2) at nesting level n. -/
def indentOf (n : Nat) : String :=
  String.mk (List.replicate (2 * n) ' ')

mutual

/-- Embedding of json.dumps(v, ensure_ascii=False, indent=2), where the
second argument is the current nesting level (the top-level call in
format_arg uses level 0). -/
def dumpsVal : JVal → Nat → String
  | .jnull, _ => "null"
  | .jbool true, _ => "true"
  | .jbool false, _ => "false"
  | .jnum n, _ => toString n
  | .jstr s, _ => "\"" ++ escapeJson s ++ "\""
  | .jarr [], _ => "[]"
  | .jarr (x :: xs), l => "[\n" ++ dumpsArr (x :: xs) (l + 1) ++ "\n" ++ indentOf l ++ "]"
  | .jobj [], _ => "\x7b\x7d"
  | .jobj (f :: fs), l => "\x7b\n" ++ dumpsObj (f :: fs) (l + 1) ++ "\n" ++ indentOf l ++ "\x7d"

/-- Comma-and-newline separated, indented array items of json.dumps. -/
def dumpsArr : List JVal → Nat → String
  | [], _ => ""
  | [x], l => indentOf l ++ dumpsVal x l
  | x :: y :: xs, l => indentOf l ++ dumpsVal x l ++ ",\n" ++ dumpsArr (y :: xs) l

/-- Comma-and-newline separated, indented object entries of json.dumps. -/
def dumpsObj : List (String × JVal) → Nat → String
  | [], _ => ""
  | [(k, v)], l => indentOf l ++ "\"" ++ escapeJson k ++ "\": " ++ dumpsVal v l
  | (k, v) :: f :: fs, l =>
      indentOf l ++ "\"" ++ escapeJson k ++ "\": " ++ dumpsVal v l ++ ",\n" ++ dumpsObj (f :: fs) l

end

mutual

/-- Python repr of a JSON-shaped value (what str() prints for dicts and
lists); string escaping inside repr is elided, the protocol strings the
program handles need none. -/
def pyRepr : JVal → String
  | .jnull => "None"
  | .jbool true => "True"
  | .jbool false => "False"
  | .jnum n => toString n
  | .jstr s => pySq ++ s ++ pySq
  | .jarr xs => "[" ++ pyReprArr xs ++ "]"
  | .jobj fs => "\x7b" ++ pyReprObj fs ++ "\x7d"

/-- Comma-separated repr of list items. -/
def pyReprArr : List JVal → String
  | [] => ""
  | [x] => pyRepr x
  | x :: y :: xs => pyRepr x ++ ", " ++ pyReprArr (y :: xs)

/-- Comma-separated repr of dict entries. -/
def pyReprObj : List (String × JVal) → String
  | [] => ""
  | [(k, v)] => pySq ++ k ++ pySq ++ ": " ++ pyRepr v
  | (k, v) :: f :: fs => pySq ++ k ++ pySq ++ ": " ++ pyRepr v ++ ", " ++ pyReprObj (f :: fs)

end

/-- Python str() of a JSON-shaped value: strings unchanged, scalars as
Python prints them, containers via repr. -/
def pyStr : JVal → String
  | .jstr s => s
  | .jnull => "None"
  | .jbool true => "True"
  | .jbool false => "False"
  | .jnum n => toString n
  | v => pyRepr v

/-- Outcome, per objectId, of the correlated Runtime.getProperties round
trip issued by get_object_properties: the reply message that the awaited
future is resolved with, the asyncio.TimeoutError raised by the outer
2-second wait_for, or another exception with its text. -/
inductive FetchOutcome where
  | reply (result : JVal)
  | timeout
  | exn (e : String)

/-- Fetch oracle: what the channel answers for each objectId. -/
def FetchEnv : Type := JVal → FetchOutcome

/-- Python dict assignment obj[name] = v on an insertion-ordered field
list: overwrite in place when the key exists, append otherwise. -/
def dictInsert : List (String × JVal) → String → JVal → List (String × JVal)
  | [], k, v => [(k, v)]
  | (k2, v2) :: rest, k, v =>
      if k2 = k then (k2, v) :: rest else (k2, v2) :: dictInsert rest k v

/-- Key used for obj[name] in preview_to_dict and get_object_properties:
prop.get("name", "?") (protocol names are strings; a non-string name is
stringified here, where Python would use it as a raw dict key). -/
def propName (p : JVal) : String :=
  match jGet p "name" with
  | some (.jstr s) => s
  | some v => pyStr v
  | none => "?"

/-- Embedding of preview_to_dict (cdp-console.py lines 100-108): listed
properties become entries name to value-or-description, an overflow flag
appends the fixed truncation entry. -/
def previewToDict (pv : JVal) : List (String × JVal) :=
  let props := match pyGet pv "properties" (.jarr []) with
    | .jarr xs => xs
    | _ => []
  let base := props.foldl
    (fun acc p => dictInsert acc (propName p) (pyGet p "value" (pyGet p "description" (.jstr "...")))) []
  if pyTruthy (pyGet pv "overflow" .jnull) then dictInsert base "..." (.jstr "(truncated)")
  else base

/-- Tail of the per-property elif chain of get_object_properties (lines
89-92), taken when the property has no inline value and is not an object
being recursed into: description if present, the "undefined" literal for
the undefined type, otherwise no entry at all. -/
def propDescChain (vd : JVal) : Option (JVal × List JVal) :=
  match jGet vd "description" with
  | some dsc => some (dsc, [])
  | none => if typeIs vd "undefined" then some (.jstr "undefined", []) else none

/-- One property of the getProperties reply (lines 73-92): the returned
pair is the value stored in obj plus the objectIds fetched while producing
it; none means the property is skipped.  recurse is available exactly when
max_depth > 0 (it is get_object_properties at depth max_depth - 1). -/
def propStep (recurse : Option (JVal → JVal × List JVal)) (vd : JVal) :
    Option (JVal × List JVal) :=
  match jGet vd "value" with
  | some v => some (v, [])
  | none =>
    match recurse with
    | some r =>
      if typeIs vd "object" then
        match jGet vd "objectId" with
        | some oid2 => some (r oid2)
        | none =>
          match jGet vd "preview" with
          | some pv => some (.jobj (previewToDict pv), [])
          | none => some (pyGet vd "description" (.jstr "[Object]"), [])
      else propDescChain vd
    | none => propDescChain vd

/-- Loop for prop in props of get_object_properties, building the obj dict
in insertion order and collecting every objectId fetched on the way. -/
def propsFold (recurse : Option (JVal → JVal × List JVal))
    (acc : List (String × JVal)) : List JVal → List (String × JVal) × List JVal
  | [] => (acc, [])
  | p :: ps =>
    let vd := pyGet p "value" (.jobj [])
    match propStep recurse vd with
    | none => propsFold recurse acc ps
    | some (v, fs) =>
      let rest := propsFold recurse (dictInsert acc (propName p) v) ps
      (rest.1, fs ++ rest.2)

/-- Body of get_object_properties once the recursion policy for nested
objects is fixed: consult the oracle for this objectId (the send_command
round trip, lines 58-65 with its try/except at 95-98), then either a
sentinel string or the dict built from the reply's result list.  The second
component lists the objectIds fetched, this one first. -/
def getPropsWith (env : FetchEnv) (recurse : Option (JVal → JVal × List JVal))
    (oid : JVal) : JVal × List JVal :=
  match env oid with
  | .timeout => (.jstr "[Object: timeout]", [oid])
  | .exn e => (.jstr ("[Object: " ++ e ++ "]"), [oid])
  | .reply result =>
    match jGet result "result" with
    | none => (.jstr "[Object]", [oid])
    | some propsVal =>
      let props := match propsVal with
        | .jarr xs => xs
        | _ => []
      let built := propsFold recurse [] props
      (.jobj built.1, oid :: built.2)

/-- Embedding of get_object_properties(object_id, max_depth) (lines 55-98).
Nested objects with an objectId are fetched recursively only while
max_depth > 0, with the depth decremented per hop. -/
def getProps (env : FetchEnv) : Nat → JVal → JVal × List JVal
  | 0, oid => getPropsWith env none oid
  | d + 1, oid => getPropsWith env (some (fun o => getProps env d o)) oid

/-- Class-name decoration of format_arg (lines 128-132 and 138-142): a
truthy className other than Object and Array puts a bracketed class tag
line above the structural body. -/
def classDecorate (arg : JVal) (formatted : String) : String :=
  let cls := pyGet arg "className" (.jstr "")
  if pyTruthy cls && !jstrEq cls "Object" && !jstrEq cls "Array" then
    "[" ++ pyStr cls ++ "]\n" ++ formatted
  else formatted

/-- Embedding of format_arg (lines 110-157).  Result: the (text, isComplex)
pair the Python function returns, paired with the objectIds fetched while
formatting (each is one send_command call).  The fetch of an objectId
argument uses the default depth 2, as in the source. -/
def formatArg (env : FetchEnv) (arg : JVal) : (String × Bool) × List JVal :=
  match jGet arg "value" with
  | some val =>
    match val with
    | .jobj _ => ((dumpsVal val 0, true), [])
    | .jarr _ => ((dumpsVal val 0, true), [])
    | _ => ((pyStr val, false), [])
  | none =>
    if typeIs arg "object" then
      match jGet arg "preview" with
      | some pv => ((classDecorate arg (dumpsVal (.jobj (previewToDict pv)) 0), true), [])
      | none =>
        match jGet arg "objectId" with
        | some oid =>
          match getProps env 2 oid with
          | (.jobj fs, fetches) => ((classDecorate arg (dumpsVal (.jobj fs) 0), true), fetches)
          | (other, fetches) => ((pyStr other, false), fetches)
        | none => ((pyStr (pyGet arg "description" (.jstr "[Object]")), false), [])
    else
      match jGet arg "description" with
      | some d => ((pyStr d, false), [])
      | none =>
        if typeIs arg "undefined" then (("undefined", false), [])
        else if typeIs arg "null" then (("null", false), [])
        else ((pyStr arg, false), [])

/-- State of a future still sitting in self.pending: waiting (created at
line 45, never resolved) or cancelled (the enclosing wait_for of
get_object_properties cancelled the send_command awaiting it). -/
inductive FutState where
  | waiting
  | cancelled
deriving DecidableEq

/-- Text of the InvalidStateError that future.set_result raises at line 164
when the popped entry holds a cancelled future (CPython renders the
future's state and repr).  The theorems below reference the resulting
diagnostic line only through this constant, so nothing depends on the
exact rendering. -/
def invalidStateMsg : String := "CANCELLED: <Future cancelled>"

/-- Session state threaded through the dispatcher model: the msg_id
counter, the pending-futures map split by future state -- ids whose future
is still waiting, and ids whose future was cancelled but whose entry leaked
in self.pending (see handleMessage) -- and the liveness flag of the read
loop.  The resolution payloads of the futures are not tracked here; the
correlator's own resolution bookkeeping is modelled by CorrState below. -/
structure SessState where
  msgId : Int
  pendingWaiting : List Int
  pendingCancelled : List Int
  running : Bool

/-- State right after connect (lines 25-35): the three handshake commands
were written with ids 1, 2, 3 without registering futures, and the counter
starts at 3. -/
def stInit : SessState :=
  { msgId := 3, pendingWaiting := [], pendingCancelled := [], running := true }

/-- Reply detection of handle_message line 162: the frame carries an "id"
key whose (integer) value is a key of the pending map; the found entry's
future state decides what set_result does. -/
def replyEntry (st : SessState) (msg : JVal) : Option (Int × FutState) :=
  match jGet msg "id" with
  | some (.jnum i) =>
    if i ∈ st.pendingWaiting then some (i, .waiting)
    else if i ∈ st.pendingCancelled then some (i, .cancelled)
    else none
  | _ => none

/-- Pending entries leaked by the nested fetches of one console event.  A
fetch whose reply arrives is popped at line 163 inside the call (no leak).
A fetch that the outer 2-second wait_for times out is cancelled: the
CancelledError propagates through send_command's await at line 50 past the
except asyncio.TimeoutError at line 51, so the pop at line 52 never runs
and the entry leaks holding a cancelled future.  A fetch whose round trip
raises otherwise (the send at line 48 failing, after the registration at
line 46) leaks its entry holding a still-waiting future.  Ids are
allocated sequentially from the given counter value, one per fetch.  The
result is (leaked waiting ids, leaked cancelled ids). -/
def leakedOf (env : FetchEnv) : Int → List JVal → List Int × List Int
  | _, [] => ([], [])
  | m, oid :: rest =>
    let i := m + 1
    let t := leakedOf env i rest
    match env oid with
    | .reply _ => t
    | .timeout => (t.1, i :: t.2)
    | .exn _ => (i :: t.1, t.2)

/-- Iteration over params.get("args", []); the protocol always supplies a
list there (a non-list would raise in Python and be caught by the frame
loop's except). -/
def jElems : JVal → List JVal
  | .jarr xs => xs
  | _ => []

/-- Join with a separator, as Python sep.join(parts). -/
def joinWith (sep : String) : List String → String
  | [] => ""
  | [s] => s
  | s :: t :: rest => s ++ sep ++ joinWith sep (t :: rest)

/-- Split a character list at newlines, keeping empty segments, as Python
text.split applied to a newline does. -/
def splitNl : List Char → List String
  | [] => [""]
  | c :: cs =>
    match splitNl cs with
    | [] => []
    | s :: rest =>
      if c = '\n' then "" :: s :: rest else (String.singleton c ++ s) :: rest

/-- Python text.split at newline characters. -/
def splitLines (s : String) : List String :=
  splitNl s.data

/-- Main line of a console event: the console-type tag, one space (from the
f-string of line 188), then the simple parts joined by single spaces. -/
def consoleHeader (logType : JVal) (simple : List String) : String :=
  "[console." ++ pyStr logType ++ "] " ++
    (if simple.isEmpty then "" else joinWith " " simple)

/-- Per-line four-space indentation of one complex block (line 193). -/
def indentBlock (s : String) : String :=
  joinWith "\n" ((splitLines s).map (fun ln => "    " ++ ln))

/-- Embedding of handle_message (lines 159-209).  Returns the updated
session state, the list of print calls the handler performs in order, and
the text of an exception the handler raises out of itself, if any (caught
by the read loop's except Exception).  A reply frame pops its pending
entry at line 163; set_result at line 164 then succeeds silently on a
waiting future but raises InvalidStateError on a leaked cancelled one.  A
console event advances msg_id by one per nested send_command performed by
its argument fetches and accumulates the entries those fetches leak in
self.pending (see leakedOf); exception and log events only print. -/
def handleMessage (env : FetchEnv) (st : SessState) (msg : JVal) :
    SessState × List String × Option String :=
  match replyEntry st msg with
  | some (i, .waiting) =>
    ({ st with pendingWaiting := st.pendingWaiting.erase i }, [], none)
  | some (i, .cancelled) =>
    ({ st with pendingCancelled := st.pendingCancelled.erase i }, [], some invalidStateMsg)
  | none =>
    let method := pyGet msg "method" (.jstr "")
    if jstrEq method "Runtime.consoleAPICalled" then
      let params := pyGet msg "params" (.jobj [])
      let logType := pyGet params "type" (.jstr "log")
      let args := jElems (pyGet params "args" (.jarr []))
      let results := args.map (fun a => formatArg env a)
      let fetches := results.flatMap (fun r => r.2)
      let leaked := leakedOf env st.msgId fetches
      let simple := (results.filter (fun r => !r.1.2)).map (fun r => r.1.1)
      let complexParts := (results.filter (fun r => r.1.2)).map (fun r => r.1.1)
      let st2 := { st with msgId := st.msgId + fetches.length,
                           pendingWaiting := st.pendingWaiting ++ leaked.1,
                           pendingCancelled := st.pendingCancelled ++ leaked.2 }
      if simple.isEmpty && complexParts.isEmpty then (st2, [], none)
      else (st2, consoleHeader logType simple :: complexParts.map indentBlock, none)
    else if jstrEq method "Runtime.exceptionThrown" then
      let params := pyGet msg "params" (.jobj [])
      let details := pyGet params "exceptionDetails" (.jobj [])
      let exc := pyGet details "exception" (.jobj [])
      let desc := pyGet exc "description" (pyGet details "text" (.jstr "Unknown error"))
      (st, ["[console.error] EXCEPTION: " ++ pyStr desc], none)
    else if jstrEq method "Log.entryAdded" then
      let params := pyGet msg "params" (.jobj [])
      let entry := pyGet params "entry" (.jobj [])
      let level := pyGet entry "level" (.jstr "info")
      let text := pyGet entry "text" (.jstr "")
      if pyTruthy text then
        (st, ["[" ++ pyStr level ++ "] " ++ pyStr text], none)
      else (st, [], none)
    else (st, [], none)

/-- Physical stdout lines of a list of print calls: each print call's text
split at its embedded newlines. -/
def outLines (calls : List String) : List String :=
  calls.flatMap splitLines

/-- One incoming frame as the read loop of run() (lines 213-223) sees it:
either its text fails json.loads (JSONDecodeError), or it parses to a
message, or handling it raises some other exception with the given text
(the except Exception branch). -/
inductive FrameInput where
  | malformed (raw : String)
  | wellFormed (msg : JVal)
  | raisesOther (e : String)

/-- Embedding of the read loop of run() (lines 211-223): frames processed
strictly in order; the loop stops early when the liveness flag is down;
JSONDecodeError is passed over silently; any other per-frame error --
whether represented abstractly by a raisesOther input or raised by the
embedded handler itself, as set_result's InvalidStateError is -- prints
one bracketed parse-error diagnostic and the loop continues. -/
def runLoop (env : FetchEnv) (st : SessState) : List FrameInput → SessState × List String
  | [] => (st, [])
  | f :: fs =>
    if st.running then
      match f with
      | .malformed _ => runLoop env st fs
      | .raisesOther e =>
        let rest := runLoop env st fs
        (rest.1, ("[parse-error] " ++ e) :: rest.2)
      | .wellFormed m =>
        let once := handleMessage env st m
        let diag := match once.2.2 with
          | some e => [("[parse-error] " ++ e)]
          | none => []
        let rest := runLoop env once.1 fs
        (rest.1, once.2.1 ++ diag ++ rest.2)
    else (st, [])

/-- Fetch oracle realised by the source's run() as written: handle_message
is awaited inline in the read loop (line 219), so while a handler awaits a
nested send_command reply (line 50 via lines 58-64) no further frame is
read or dispatched, and line 164 -- the only place a pending future is
resolved -- cannot run.  The future created at line 45 is therefore still
unresolved when the outer 2-second wait_for of get_object_properties
elapses, so every round-trip fetch issued from inside the loop ends in
asyncio.TimeoutError regardless of what the channel later delivers -- and,
per leakedOf, leaves its cancelled future leaked in self.pending. -/
def seqFetchEnv : FetchEnv := fun _ => FetchOutcome.timeout

/-- The run loop of the source, with the nested-fetch outcome forced by its
own sequential structure as described at seqFetchEnv. -/
def seqRun (st : SessState) (frames : List FrameInput) : SessState × List String :=
  runLoop seqFetchEnv st frames

/-- How one request sent through the Correlator could end: resolved by a
matching reply (set_result at line 164), resolved with the timeout dict
(lines 51-53), or resolved by a teardown cancellation.  Which of these the
program actually ever delivers is settled by the theorems below. -/
inductive Resolution where
  | matched
  | timedOut
  | cancelled
deriving DecidableEq

/-- External events driving the Correlator, one per source path that
touches the pending map: send_command allocating and registering a request
(lines 39-48); an incoming frame carrying a given id (lines 162-165); the
expiry of the enclosing 2-second wait_for of get_object_properties (line
58), which cancels the in-flight send_command -- the CancelledError skips
the except at line 51, so the pop at line 52 never runs, leaving the entry
pending with a cancelled future and delivering no resolution; and close()
(lines 227-230).  There is no event for the inner 5-second timeout of
send_command itself (lines 51-53): in this program every send_command call
is made at line 59 under the 2-second outer wait_for, which always expires
first, so that path is dead code. -/
inductive CorrEvent where
  | send
  | reply (i : Int)
  | cancel (i : Int)
  | close
deriving DecidableEq

/-- Correlator state: the msg_id counter; the pending map split by future
state (ids awaiting a reply, and ids whose entry leaked after the outer
wait_for cancelled their sender); every id ever written to the wire in
order; the resolutions delivered to waiting callers in order; the ghost
list of every id whose in-flight send_command was ever cancelled; and the
liveness flag. -/
structure CorrState where
  msgId : Int
  pendingWaiting : List Int
  pendingCancelled : List Int
  sentIds : List Int
  resolutions : List (Int × Resolution)
  cancelledIds : List Int
  running : Bool

/-- Correlator state right after connect (lines 25-35): ids 1, 2, 3 written
for the handshake with no futures registered, counter initialised to 3. -/
def connectState : CorrState :=
  { msgId := 3, pendingWaiting := [], pendingCancelled := [], sentIds := [1, 2, 3],
    resolutions := [], cancelledIds := [], running := true }

/-- One Correlator step, mirroring the source paths named at CorrEvent.
send increments msg_id and registers the id with a waiting future.  A
frame whose id is pending is popped at line 163; set_result at line 164
then resolves a waiting caller with the match, but on a leaked cancelled
future it raises InvalidStateError instead -- the entry is gone, yet no
resolution is delivered; frames with other ids belong to the dispatcher.
A cancel moves a waiting entry to the leaked-cancelled part of the map
(the entry itself stays in self.pending) and records the id in the ghost
list; it delivers no resolution.  close only lowers the liveness flag and
closes the channel -- it touches neither the pending map nor any
future. -/
def corrStep (s : CorrState) : CorrEvent → CorrState
  | .send =>
    let i := s.msgId + 1
    { s with msgId := i, pendingWaiting := s.pendingWaiting ++ [i],
             sentIds := s.sentIds ++ [i] }
  | .reply i =>
    if i ∈ s.pendingWaiting then
      { s with pendingWaiting := s.pendingWaiting.erase i,
               resolutions := s.resolutions ++ [(i, .matched)] }
    else if i ∈ s.pendingCancelled then
      { s with pendingCancelled := s.pendingCancelled.erase i }
    else s
  | .cancel i =>
    if i ∈ s.pendingWaiting then
      { s with pendingWaiting := s.pendingWaiting.erase i,
               pendingCancelled := s.pendingCancelled ++ [i],
               cancelledIds := s.cancelledIds ++ [i] }
    else s
  | .close => { s with running := false }

/-- Run of the Correlator over a list of events. -/
def corrRun (s : CorrState) : List CorrEvent → CorrState
  | [] => s
  | e :: es => corrRun (corrStep s e) es

/-- The ids n, n + 1, ..., n + len - 1. -/
def idSeq (start : Int) : Nat → List Int
  | 0 => []
  | n + 1 => start :: idSeq (start + 1) n

/-- Invariant maintained by every Correlator step: both parts of the
pending map and the resolved ids are duplicate-free; all recorded ids are
bounded by the counter; a waiting id is unresolved; every resolution ever
delivered is a match; an id once cancelled is never resolved and never
waiting again; and a leaked cancelled entry's id is recorded in the ghost
list. -/
def CorrInv (s : CorrState) : Prop :=
  s.pendingWaiting.Nodup ∧
  s.pendingCancelled.Nodup ∧
  (s.resolutions.map Prod.fst).Nodup ∧
  (∀ i ∈ s.pendingWaiting, i ≤ s.msgId) ∧
  (∀ i ∈ s.pendingCancelled, i ≤ s.msgId) ∧
  (∀ i ∈ s.cancelledIds, i ≤ s.msgId) ∧
  (∀ p ∈ s.resolutions, p.1 ≤ s.msgId) ∧
  (∀ i ∈ s.pendingWaiting, i ∉ s.resolutions.map Prod.fst) ∧
  (∀ p ∈ s.resolutions, p.2 = Resolution.matched) ∧
  (∀ i ∈ s.cancelledIds, i ∉ s.resolutions.map Prod.fst) ∧
  (∀ i ∈ s.cancelledIds, i ∉ s.pendingWaiting) ∧
  (∀ i ∈ s.pendingCancelled, i ∈ s.cancelledIds)

/-- PrintableNode shape at the top of get_object_properties' result: either
a sentinel/description string or a property mapping. -/
def isPrintableNode : JVal → Bool
  | .jstr _ => true
  | .jobj _ => true
  | _ => false

/-- Fetch oracle whose every round trip fails with a non-timeout
exception. -/
def envAllExn : FetchEnv := fun _ => FetchOutcome.exn "boom"

/-- A Runtime.exceptionThrown frame carrying the given exceptionDetails. -/
def excMsg (details : JVal) : JVal :=
  .jobj [("method", .jstr "Runtime.exceptionThrown"),
         ("params", .jobj [("exceptionDetails", details)])]

/-- A Runtime.consoleAPICalled frame of type log with a single argument. -/
def consoleMsgOf (arg : JVal) : JVal :=
  .jobj [("method", .jstr "Runtime.consoleAPICalled"),
         ("params", .jobj [("type", .jstr "log"), ("args", .jarr [arg])])]

/-- Console event whose single argument carries the composite inline value
of one field a mapped to 1 (the scenario of the spec's formatting
property). -/
def msgC6 : JVal :=
  consoleMsgOf (.jobj [("type", .jstr "object"), ("value", .jobj [("a", .jnum 1)])])

/-- Console event of type log with the two scalar arguments 5 and x. -/
def msgC7 : JVal :=
  .jobj [("method", .jstr "Runtime.consoleAPICalled"),
         ("params", .jobj [("type", .jstr "log"),
            ("args", .jarr [.jobj [("type", .jstr "number"), ("value", .jnum 5)],
                            .jobj [("type", .jstr "string"), ("value", .jstr "x")]])])]

/-- Console event whose single argument is an object handle with neither
inline value nor preview, forcing a round-trip property fetch. -/
def msgHandleArg : JVal :=
  consoleMsgOf (.jobj [("type", .jstr "object"), ("objectId", .jstr "remote-1")])

/-- Reply frame for the nested fetch that send_command registers with id 4
(the first id after the handshake). -/
def msgReplyFour : JVal :=
  .jobj [("id", .jnum 4), ("result", .jobj [("result", .jarr [])])]

/-- An independent console event with the single scalar argument ok. -/
def msgIndep : JVal :=
  consoleMsgOf (.jobj [("type", .jstr "string"), ("value", .jstr "ok")])

theorem resIds_append (res : List (Int × Resolution)) (i : Int) (r : Resolution) :
    (res ++ [(i, r)]).map Prod.fst = res.map Prod.fst ++ [i] := by
  simp

theorem corrStep_inv (s : CorrState) (e : CorrEvent) (h : CorrInv s) :
    CorrInv (corrStep s e) := by
  obtain ⟨h1, h2, h3, h4, h5, h6, h7, h8, h9, h10, h11, h12⟩ := h
  cases e with
  | send =>
    refine ⟨?_, h2, h3, ?_, ?_, ?_, ?_, ?_, h9, h10, ?_, h12⟩
    · simp [corrStep, List.nodup_append, h1]
      intro hmem
      have := h4 _ hmem
      omega
    · intro j hj
      simp only [corrStep, List.mem_append, List.mem_singleton] at hj
      simp only [corrStep]
      rcases hj with hj | hj
      · have := h4 _ hj; omega
      · omega
    · intro j hj
      simp only [corrStep] at hj ⊢
      have := h5 _ hj
      omega
    · intro j hj
      simp only [corrStep] at hj ⊢
      have := h6 _ hj
      omega
    · intro p hp
      simp only [corrStep] at hp ⊢
      have := h7 _ hp
      omega
    · intro j hj
      simp only [corrStep, List.mem_append, List.mem_singleton] at hj
      simp only [corrStep]
      rcases hj with hj | hj
      · exact h8 j hj
      · subst hj
        intro hc
        simp only [List.mem_map] at hc
        obtain ⟨p, hp, hfst⟩ := hc
        have := h7 _ hp
        omega
    · intro j hj
      simp only [corrStep] at hj ⊢
      simp only [List.mem_append, List.mem_singleton]
      intro hc
      rcases hc with hc | hc
      · exact h11 j hj hc
      · subst hc
        have := h6 _ hj
        omega
  | reply i =>
    simp only [corrStep]
    by_cases hw : i ∈ s.pendingWaiting
    · simp only [hw, if_true]
      refine ⟨h1.erase i, h2, ?_, ?_, h5, h6, ?_, ?_, ?_, ?_, ?_, h12⟩
      · rw [resIds_append, List.nodup_append]
        refine ⟨h3, List.nodup_singleton i, ?_⟩
        intro a ha hb
        simp only [List.mem_singleton] at hb
        subst hb
        exact (h8 a hw) ha
      · intro j hj
        exact h4 j (List.mem_of_mem_erase hj)
      · intro p hp
        rcases List.mem_append.mp hp with hp | hp
        · exact h7 p hp
        · simp at hp
          subst hp
          exact h4 i hw
      · intro j hj
        have hj2 := (h1.mem_erase_iff).mp hj
        rw [resIds_append]
        intro hc
        rcases List.mem_append.mp hc with hc | hc
        · exact h8 j hj2.2 hc
        · simp at hc
          exact hj2.1 hc
      · intro p hp
        rcases List.mem_append.mp hp with hp | hp
        · exact h9 p hp
        · simp at hp
          subst hp
          rfl
      · intro j hj
        rw [resIds_append]
        intro hc
        rcases List.mem_append.mp hc with hc | hc
        · exact h10 j hj hc
        · simp at hc
          subst hc
          exact (h11 j hj) hw
      · intro j hj
        intro hc
        exact h11 j hj (List.mem_of_mem_erase hc)
    · simp only [hw, if_false]
      by_cases hc : i ∈ s.pendingCancelled
      · simp only [hc, if_true]
        refine ⟨h1, h2.erase i, h3, h4, ?_, h6, h7, h8, h9, h10, h11, ?_⟩
        · intro j hj
          exact h5 j (List.mem_of_mem_erase hj)
        · intro j hj
          exact h12 j (List.mem_of_mem_erase hj)
      · simp only [hc, if_false]
        exact ⟨h1, h2, h3, h4, h5, h6, h7, h8, h9, h10, h11, h12⟩
  | cancel i =>
    simp only [corrStep]
    by_cases hw : i ∈ s.pendingWaiting
    · simp only [hw, if_true]
      refine ⟨h1.erase i, ?_, h3, ?_, ?_, ?_, h7, ?_, h9, ?_, ?_, ?_⟩
      · rw [List.nodup_append]
        refine ⟨h2, List.nodup_singleton i, ?_⟩
        intro a ha hb
        simp only [List.mem_singleton] at hb
        subst hb
        exact (h11 a (h12 a ha)) hw
      · intro j hj
        exact h4 j (List.mem_of_mem_erase hj)
      · intro j hj
        rcases List.mem_append.mp hj with hj | hj
        · exact h5 j hj
        · simp at hj
          subst hj
          exact h4 _ hw
      · intro j hj
        rcases List.mem_append.mp hj with hj | hj
        · exact h6 j hj
        · simp at hj
          subst hj
          exact h4 _ hw
      · intro j hj
        exact h8 j (List.mem_of_mem_erase hj)
      · intro j hj
        rcases List.mem_append.mp hj with hj | hj
        · exact h10 j hj
        · simp at hj
          subst hj
          exact h8 _ hw
      · intro j hj
        rcases List.mem_append.mp hj with hj | hj
        · intro hc
          exact h11 j hj (List.mem_of_mem_erase hc)
        · simp at hj
          subst hj
          intro hc
          exact ((h1.mem_erase_iff).mp hc).1 rfl
      · intro j hj
        rcases List.mem_append.mp hj with hj | hj
        · exact List.mem_append.mpr (Or.inl (h12 j hj))
        · simp at hj
          subst hj
          exact List.mem_append.mpr (Or.inr (by simp))
    · simp only [hw, if_false]
      exact ⟨h1, h2, h3, h4, h5, h6, h7, h8, h9, h10, h11, h12⟩
  | close => exact ⟨h1, h2, h3, h4, h5, h6, h7, h8, h9, h10, h11, h12⟩

theorem corrRun_inv (es : List CorrEvent) : ∀ s : CorrState, CorrInv s →
    CorrInv (corrRun s es) := by
  induction es with
  | nil => intro s h; exact h
  | cons e rest ih => intro s h; exact ih (corrStep s e) (corrStep_inv s e h)

theorem connect_inv : CorrInv connectState := by
  refine ⟨?_, ?_, ?_, ?_, ?_, ?_, ?_, ?_, ?_, ?_, ?_, ?_⟩ <;> simp [connectState]

theorem corrRun_sends (n : Nat) : ∀ s : CorrState,
    (corrRun s (List.replicate n .send)).sentIds = s.sentIds ++ idSeq (s.msgId + 1) n := by
  induction n with
  | zero => intro s; simp [corrRun, idSeq]
  | succ m ih =>
    intro s
    rw [List.replicate_succ]
    show (corrRun (corrStep s .send) (List.replicate m .send)).sentIds = _
    rw [ih]
    simp [corrStep, idSeq]

theorem idSeq_chain (n : Nat) : ∀ start : Int, List.Chain' (· < ·) (idSeq start n) := by
  induction n with
  | zero => intro start; simp [idSeq]
  | succ m ih =>
    intro start
    rw [idSeq]
    rcases m with _ | m2
    · simp [idSeq]
    · rw [List.chain'_cons']
      refine ⟨?_, ih (start + 1)⟩
      intro b hb
      rw [idSeq] at hb
      simp at hb
      omega

theorem chainFull (n : Nat) : List.Chain' (· < ·) ([1, 2, 3] ++ idSeq 4 n) := by
  rw [List.chain'_append]
  refine ⟨?_, idSeq_chain n 4, ?_⟩
  · simp [List.chain'_cons]
  · intro x hx y hy
    rcases n with _ | m
    · simp [idSeq] at hy
    · rw [idSeq] at hy
      simp at hx hy
      omega

/-- C1 (corrected claim, the counterexample): a request sent and still
pending when close() runs receives no resolution from the teardown at all.
After one send_command and one close, id 4 is still pending (future
waiting) and the resolution log is empty with only the liveness flag
changed; and a request whose enclosing fetch already timed out before the
close (one send_command, one outer-wait_for cancellation, one close) is
likewise pending with a leaked cancelled future and no resolution.  This
falsifies the claim that every request pending at session close is
resolved with a cancellation result. -/
theorem c1_close_counterexample :
    (corrRun connectState [CorrEvent.send, CorrEvent.close]).pendingWaiting = [4] ∧
    (corrRun connectState [CorrEvent.send, CorrEvent.close]).resolutions = [] ∧
    (corrRun connectState [CorrEvent.send, CorrEvent.close]).running = false ∧
    (corrRun connectState
      [CorrEvent.send, CorrEvent.cancel 4, CorrEvent.close]).pendingCancelled = [4] ∧
    (corrRun connectState
      [CorrEvent.send, CorrEvent.cancel 4, CorrEvent.close]).resolutions = [] :=
  ⟨rfl, rfl, rfl, rfl, rfl⟩

/-- C1 (amended): every request is resolved at most once, and the only
resolution this program ever delivers is a matching reply -- neither a
timeout resolution (the inner timeout path of send_command, lines 51-53,
is dead code: every call runs under the shorter 2-second wait_for of
get_object_properties, which always cancels send_command first) nor a
cancellation resolution (which the code does not implement) ever occurs.
An outer-wait_for cancellation delivers no resolution and leaves the
request's entry leaked in the pending map with a cancelled future, and a
request once so cancelled is never resolved by anything afterwards (a late
matching reply merely pops the dead entry).  close() changes only the
liveness flag and resolves nothing, so requests still pending at close are
never resolved at all -- callers are protected from waiting forever only
by the 2-second wait_for enclosing each fetch, not by any resolution. -/
theorem c1_resolution :
    (∀ es : List CorrEvent,
      ((corrRun connectState es).resolutions.map Prod.fst).Nodup) ∧
    (∀ es : List CorrEvent, ∀ p ∈ (corrRun connectState es).resolutions,
      p.2 = Resolution.matched) ∧
    (∀ es : List CorrEvent, ∀ i ∈ (corrRun connectState es).cancelledIds,
      i ∉ (corrRun connectState es).resolutions.map Prod.fst) ∧
    (∀ (s : CorrState) (i : Int), i ∈ s.pendingWaiting →
      (corrStep s (.cancel i)).resolutions = s.resolutions ∧
      i ∈ (corrStep s (.cancel i)).pendingCancelled) ∧
    (∀ s : CorrState, corrStep s .close = { s with running := false }) := by
  refine ⟨?_, ?_, ?_, ?_, ?_⟩
  · intro es
    obtain ⟨_, _, h3, _⟩ := corrRun_inv es connectState connect_inv
    exact h3
  · intro es
    obtain ⟨_, _, _, _, _, _, _, _, h9, _⟩ := corrRun_inv es connectState connect_inv
    exact h9
  · intro es
    obtain ⟨_, _, _, _, _, _, _, _, _, h10, _⟩ := corrRun_inv es connectState connect_inv
    exact h10
  · intro s i hmem
    constructor
    · simp [corrStep, hmem]
    · simp [corrStep, hmem]
  · intro s
    rfl

/-- Witness for c1_resolution at concrete inputs: the trace send-then-reply
delivers the match resolution for id 4; the trace send-then-cancel records
id 4 as cancelled and indeed leaves it unresolved; and at the state after
one send_command, cancelling in-flight id 4 resolves nothing while leaving
its entry pending as cancelled. -/
theorem c1_resolution_witness :
    ((4, Resolution.matched) : Int × Resolution).2 = Resolution.matched ∧
    (4 : Int) ∉
      (corrRun connectState [CorrEvent.send, CorrEvent.cancel 4]).resolutions.map Prod.fst ∧
    (corrStep (corrStep connectState .send) (.cancel 4)).resolutions =
      (corrStep connectState .send).resolutions ∧
    (4 : Int) ∈ (corrStep (corrStep connectState .send) (.cancel 4)).pendingCancelled :=
  ⟨c1_resolution.2.1 [CorrEvent.send, CorrEvent.reply 4] (4, Resolution.matched) (by decide),
   c1_resolution.2.2.1 [CorrEvent.send, CorrEvent.cancel 4] 4 (by decide),
   (c1_resolution.2.2.2.1 (corrStep connectState .send) 4 (by decide)).1,
   (c1_resolution.2.2.2.1 (corrStep connectState .send) 4 (by decide)).2⟩

/-- C5: request ids over a whole session.  After connect (which wrote the
three reserved handshake ids 1, 2, 3) and any number n of send_command
calls, the ids written to the wire are exactly 1, 2, 3 followed by
4, 5, ..., n + 3; the full sequence is strictly increasing position by
position (each request's id exceeds every id used before it), hence all ids
are unique; and whenever at least one correlated request is sent, the first
one gets id 4. -/
theorem c5_request_ids (n : Nat) :
    (corrRun connectState (List.replicate n .send)).sentIds = [1, 2, 3] ++ idSeq 4 n ∧
    List.Pairwise (· < ·) ((corrRun connectState (List.replicate n .send)).sentIds) ∧
    ((corrRun connectState (List.replicate n .send)).sentIds).Nodup ∧
    (((corrRun connectState (List.replicate (n + 1) .send)).sentIds).drop 3).head? =
      some 4 := by
  have he : ∀ m : Nat,
      (corrRun connectState (List.replicate m .send)).sentIds = [1, 2, 3] ++ idSeq 4 m := by
    intro m
    rw [corrRun_sends]
    rfl
  have hp : List.Pairwise (· < ·) ((corrRun connectState (List.replicate n .send)).sentIds) := by
    rw [he n]
    exact List.chain'_iff_pairwise.mp (chainFull n)
  refine ⟨he n, hp, hp.imp ?_, ?_⟩
  · intro a b hlt
    exact ne_of_lt hlt
  · rw [he (n + 1)]
    simp [idSeq]

theorem propStep_none_snd (vd v : JVal) (fs : List JVal)
    (h : propStep none vd = some (v, fs)) : fs = [] := by
  unfold propStep propDescChain at h
  repeat' split at h
  all_goals simp_all

theorem propsFold_none_snd (ps : List JVal) : ∀ acc : List (String × JVal),
    (propsFold none acc ps).2 = [] := by
  induction ps with
  | nil => intro acc; rfl
  | cons p rest ih =>
    intro acc
    rw [propsFold]
    rcases hstep : propStep none (pyGet p "value" (.jobj [])) with _ | ⟨v, fs⟩
    · exact ih acc
    · have hfs := propStep_none_snd _ v fs hstep
      subst hfs
      simp [ih]

theorem getPropsWith_printable (env : FetchEnv)
    (r : Option (JVal → JVal × List JVal)) (oid : JVal) :
    isPrintableNode (getPropsWith env r oid).1 = true := by
  unfold getPropsWith
  split
  · rfl
  · rfl
  · split
    · rfl
    · rfl

/-- C3: materialization is total and depth-guarded.  For every fetch
oracle, every depth and every objectId, get_object_properties returns a
printable node (a sentinel/description string or a property mapping) --
the function is total by construction, every exception path of the source
being converted to a sentinel inside its try/except -- and at depth 0 the
only properties round trip issued is the one for the descriptor itself:
no recursive fetch of a nested object handle occurs. -/
theorem c3_materialize_total (env : FetchEnv) (d : Nat) (oid : JVal) :
    isPrintableNode (getProps env d oid).1 = true ∧
    (getProps env 0 oid).2 = [oid] := by
  constructor
  · cases d with
    | zero => exact getPropsWith_printable env none oid
    | succ d2 => exact getPropsWith_printable env _ oid
  · show (getPropsWith env none oid).2 = [oid]
    unfold getPropsWith
    split
    · rfl
    · rfl
    · split
      · rfl
      · simp [propsFold_none_snd]

/-- C4: a property fetch that times out materializes to exactly the
sentinel string bracketed Object colon timeout, and one failing with any
other error to the bracketed Object colon error-text sentinel, at every
depth; in both cases the failure is returned as a value (the except
branches of get_object_properties), never propagated to the caller. -/
theorem c4_fetch_sentinels (env : FetchEnv) (d : Nat) (oid : JVal) :
    (env oid = .timeout →
      getProps env d oid = (.jstr "[Object: timeout]", [oid])) ∧
    (∀ e : String, env oid = .exn e →
      getProps env d oid = (.jstr ("[Object: " ++ e ++ "]"), [oid])) := by
  constructor
  · intro h
    cases d <;> simp [getProps, getPropsWith, h]
  · intro e h
    cases d <;> simp [getProps, getPropsWith, h]

/-- Witness for c4_fetch_sentinels: a concrete timing-out oracle and a
concrete failing oracle, applied to a concrete objectId at the default
depth 2. -/
theorem c4_fetch_sentinels_witness :
    getProps seqFetchEnv 2 (.jstr "obj-1") = (.jstr "[Object: timeout]", [.jstr "obj-1"]) ∧
    getProps envAllExn 2 (.jstr "obj-1") = (.jstr "[Object: boom]", [.jstr "obj-1"]) :=
  ⟨(c4_fetch_sentinels seqFetchEnv 2 (.jstr "obj-1")).1 rfl,
   (c4_fetch_sentinels envAllExn 2 (.jstr "obj-1")).2 "boom" rfl⟩

/-- C7: a console event of type log with the two scalar arguments 5 and x
prints exactly one output line, the console-type tag followed by the
space-joined simple parts, and that one print call is one physical line. -/
theorem c7_two_scalars (env : FetchEnv) (st : SessState) :
    (handleMessage env st msgC7).2.1 = ["[console.log] 5 x"] ∧
    outLines (handleMessage env st msgC7).2.1 = ["[console.log] 5 x"] :=
  ⟨rfl, rfl⟩

/-- C6 (corrected claim, the counterexample): for the console event whose
single argument is the composite inline value with field a mapped to 1, the
first printed physical line is not the bare console-type tag: the f-string
of line 188 always appends a space after the tag, so the header line ends
in a space even though the main line is empty. -/
theorem c6_header_counterexample :
    (outLines (handleMessage seqFetchEnv stInit msgC6).2.1).head? ≠
      some "[console.log]" := by
  have h : dumpsVal (.jobj [("a", .jnum 1)]) 0 = "\x7b\n  \"a\": 1\n\x7d" := by
    simp [dumpsVal, dumpsObj, dumpsArr]
    rfl
  have hV : outLines (handleMessage seqFetchEnv stInit msgC6).2.1 =
      ["[console.log] ", "    \x7b", "      \"a\": 1", "    \x7d"] := by
    show outLines ("[console.log] " :: [indentBlock (dumpsVal (.jobj [("a", .jnum 1)]) 0)]) = _
    rw [h]
    rfl
  rw [hV]
  decide

/-- C6 (amended): the same event produces the header print call consisting
of the console-type tag, one space and the empty main line, followed by one
block print call reproducing the pretty-printed composite; physically that
is the header line with its trailing space and then the three lines of the
pretty-printed mapping, each carrying the fixed four-space indentation
prefix. -/
theorem c6_composite_block (env : FetchEnv) (st : SessState) :
    (handleMessage env st msgC6).2.1 =
      ["[console.log] ", "    \x7b\n      \"a\": 1\n    \x7d"] ∧
    outLines (handleMessage env st msgC6).2.1 =
      ["[console.log] ", "    \x7b", "      \"a\": 1", "    \x7d"] := by
  have h : dumpsVal (.jobj [("a", .jnum 1)]) 0 = "\x7b\n  \"a\": 1\n\x7d" := by
    simp [dumpsVal, dumpsObj, dumpsArr]
    rfl
  constructor
  · show ("[console.log] " :: [indentBlock (dumpsVal (.jobj [("a", .jnum 1)]) 0)]) = _
    rw [h]
    rfl
  · show outLines ("[console.log] " :: [indentBlock (dumpsVal (.jobj [("a", .jnum 1)]) 0)]) = _
    rw [h]
    rfl

/-- C8: for every exception event, the printed message is exactly the
exception object's description when that key is present, otherwise the
event's raw text when present, otherwise the literal Unknown error --
precisely the nested get-with-default chain of line 200 -- emitted as one
EXCEPTION line with the console.error tag and no state change; in
particular, the event with empty exceptionDetails prints the Unknown error
line. -/
theorem c8_exception_fallback (env : FetchEnv) (st : SessState) (details : JVal) :
    handleMessage env st (excMsg details) =
      (st, ["[console.error] EXCEPTION: " ++
        pyStr (pyGet (pyGet details "exception" (.jobj []))
          "description" (pyGet details "text" (.jstr "Unknown error")))], none) ∧
    (handleMessage env st (excMsg (.jobj []))).2.1 =
      ["[console.error] EXCEPTION: Unknown error"] :=
  ⟨rfl, rfl⟩

/-- C9: per-frame error containment in the read loop.  A frame whose text
fails to parse is dropped with no output and no state change (processing
the remaining frames from the unchanged state); a frame whose processing
raises any other error contributes exactly one parse-error diagnostic line
while the loop continues with the remaining frames from the unchanged
state -- in particular neither kind of per-frame error terminates the
session. -/
theorem c9_frame_errors :
    (∀ (env : FetchEnv) (st : SessState) (raw : String) (fs : List FrameInput),
      runLoop env st (.malformed raw :: fs) = runLoop env st fs) ∧
    (∀ (env : FetchEnv) (st : SessState) (e : String) (fs : List FrameInput),
      st.running = true →
      runLoop env st (.raisesOther e :: fs) =
        ((runLoop env st fs).1, ("[parse-error] " ++ e) :: (runLoop env st fs).2)) := by
  constructor
  · intro env st raw fs
    by_cases h : st.running
    · simp [runLoop, h]
    · cases fs with
      | nil => simp [runLoop, h]
      | cons f fs2 => simp [runLoop, h]
  · intro env st e fs h
    simp [runLoop, h]

/-- Witness for c9_frame_errors: in the live initial session state, one
frame whose handling raises prints exactly the one diagnostic line. -/
theorem c9_frame_errors_witness :
    runLoop seqFetchEnv stInit [FrameInput.raisesOther "boom"] =
      ((runLoop seqFetchEnv stInit []).1,
       ("[parse-error] " ++ "boom") :: (runLoop seqFetchEnv stInit []).2) :=
  c9_frame_errors.2 seqFetchEnv stInit "boom" [] rfl

/-- C10: when the property fetch for an object-handle argument (no inline
value, no preview) produces a string -- as the timeout and error sentinels
are -- rather than a property mapping, format_arg returns it flagged
simple, and the console event carrying that single argument prints it
inline on the console-type header line, with no indented block. -/
theorem c10_sentinel_inline (env : FetchEnv) (arg oid : JVal) (s : String)
    (hv : jGet arg "value" = none) (ht : typeIs arg "object" = true)
    (hp : jGet arg "preview" = none) (ho : jGet arg "objectId" = some oid)
    (hs : (getProps env 2 oid).1 = .jstr s) :
    formatArg env arg = ((s, false), (getProps env 2 oid).2) ∧
    (handleMessage env stInit (consoleMsgOf arg)).2.1 = ["[console.log] " ++ s] := by
  have hfa : formatArg env arg = ((s, false), (getProps env 2 oid).2) := by
    rcases hgp : getProps env 2 oid with ⟨v1, v2⟩
    rw [hgp] at hs
    simp only at hs
    subst hs
    simp only [formatArg, hv, ht, hp, ho, hgp]
    rfl
  refine ⟨hfa, ?_⟩
  simp only [handleMessage, consoleMsgOf, replyEntry, jGet, lookupField, pyGet, jstrEq,
    jElems, List.map, hfa, List.filter, consoleHeader, joinWith, pyStr, stInit]
  rfl

/-- Witness for c10_sentinel_inline: the concrete handle argument whose
fetch times out yields the inline timeout sentinel on the header line. -/
theorem c10_sentinel_inline_witness :
    formatArg seqFetchEnv (.jobj [("type", .jstr "object"), ("objectId", .jstr "remote-1")]) =
      (("[Object: timeout]", false),
       (getProps seqFetchEnv 2 (.jstr "remote-1")).2) ∧
    (handleMessage seqFetchEnv stInit
      (consoleMsgOf (.jobj [("type", .jstr "object"), ("objectId", .jstr "remote-1")]))).2.1 =
      ["[console.log] " ++ "[Object: timeout]"] :=
  c10_sentinel_inline seqFetchEnv
    (.jobj [("type", .jstr "object"), ("objectId", .jstr "remote-1")])
    (.jstr "remote-1") "[Object: timeout]" rfl rfl rfl rfl rfl

/-- C2 (the sequential-loop behaviour of the source, contradicting the
claimed dedicated frame-receiving task): in run() as written, the handler
of a console event whose argument needs a round-trip property fetch is
awaited inline by the only frame-reading loop, so the fetch's reply can
never be dispatched while the handler waits; the fetch always ends in the
timeout sentinel and leaks its pending entry with a cancelled future
(first conjunct: after the one event frame, id 4 sits leaked in the
pending map).  The reply frame, processed only after the handler finished,
finds the leaked entry, pops it, and set_result raises InvalidStateError,
which the loop reports as one parse-error diagnostic; the subsequent
independent event is printed only after all of that.  Concretely, on the
frame sequence handle-event, reply-to-id-4, independent-event, the loop
prints three lines: the timeout-sentinel header, the InvalidStateError
diagnostic, and the independent event's line. -/
theorem c2_sequential_loop :
    seqRun stInit [.wellFormed msgHandleArg] =
      ({ msgId := 4, pendingWaiting := [], pendingCancelled := [4], running := true },
       ["[console.log] [Object: timeout]"]) ∧
    seqRun stInit [.wellFormed msgHandleArg, .wellFormed msgReplyFour, .wellFormed msgIndep] =
      ({ msgId := 4, pendingWaiting := [], pendingCancelled := [], running := true },
       ["[console.log] [Object: timeout]",
        "[parse-error] " ++ invalidStateMsg,
        "[console.log] ok"]) :=
  ⟨rfl, rfl⟩
